import Mathlib

/-!
Verification of the flower-text-fill repository.

The development shallowly embeds the two subsystems of the program:

* the path-constrained text layout engine (`src/utils/flowerUtils.js`:
  `loadFlowerResources`, `willTextOverflow`), and
* the capture/render state machine of `src/components/InteractiveCanvas.jsx`
  (`handleTranscript`, `finalizeRecognition`, `resetSilenceTimer`,
  `requestRecognitionRestart`, `startListening`, the recognition event
  handlers, the volume-gate poll and the status watchdog).

Canvas, DOM and Web-Speech objects are modelled abstractly: the expanded
hit-test region becomes a boolean predicate, `measureText` a width function,
timers become explicit fields of the component state, and each JS event
handler becomes a pure function on that state.
-/

namespace FlowerTextFill

/-! ## Constants (src/constants/appConstants.js; the recognition/watchdog
constants appear only in the earlier copy of the constants module) -/

def FLOWER_TARGET_WIDTH : Nat := 730

def FONT_SIZE_PX : Nat := 15

def LINE_HEIGHT_PX : Nat := 21

def RESULT_DISPLAY_DELAY_MS : Nat := 1500

def CANVAS_FADE_DURATION_MS : Nat := 800

def RENDER_IDLE_DELAY_MS : Nat := 500

def NEW_TEXT_FADE_DURATION_MS : Nat := 1500

def SILENCE_TIMEOUT_MS : Nat := 1000

def VOLUME_THRESHOLD : ℚ := 8 / 100

def VOLUME_CHECK_INTERVAL_MS : Nat := 100

def RECOGNITION_RESTART_DELAY_MS : Nat := 500

def RECOGNITION_MAX_RETRIES : Nat := 3

def RENDER_IDLE_WATCHDOG_MS : Nat := 5000

/-! ## Layout engine (src/utils/flowerUtils.js) -/

/-- Abstract rendering environment for the layout scan of `willTextOverflow`.
`ctxOk` models whether `canvas.getContext("2d")` returns a context,
`inside x y` models `ctx.isPointInPath(expandedPath, x, y)` and
`measure c` models `ctx.measureText(c).width` at the configured font. -/
structure LayoutEnv where
  ctxOk : Bool
  flowerWidth : Nat
  flowerHeight : ℚ
  inside : Nat → ℚ → Bool
  measure : Char → ℚ

/-- JS `textItems.join(" ")`. -/
def joinSpace (items : List String) : String := String.intercalate " " items

/-- Range collection of `willTextOverflow`: scan `x` from `0` to
`flowerWidth - 1` in 1-unit steps, recording maximal contiguous
`[startX, x)` runs where `inside x y` holds, closing a final open run at
`flowerWidth`. -/
def collectRanges (env : LayoutEnv) (y : ℚ) : List (Nat × Nat) :=
  let st := (List.range env.flowerWidth).foldl
    (fun st x =>
      let inside := env.inside x y
      let inPath := st.1
      let startX := st.2.1
      let ranges := st.2.2
      if inside && !inPath then (true, x, ranges)
      else if !inside && inPath then (false, startX, ranges ++ [(startX, x)])
      else st)
    ((false, 0, []) : Bool × Nat × List (Nat × Nat))
  if st.1 then st.2.2 ++ [(st.2.1, env.flowerWidth)] else st.2.2

/-- Greedy placement of the inner `while` loop: while characters remain and
`currX < xEnd`, measure the next character; stop if `currX + width > xEnd`,
otherwise advance `currX` and consume the character. Returns the unplaced
suffix. -/
def placeInRange (env : LayoutEnv) : List Char → ℚ → ℚ → List Char
  | [], _, _ => []
  | c :: rest, currX, xEnd =>
    if currX < xEnd then
      if currX + env.measure c > xEnd then c :: rest
      else placeInRange env rest (currX + env.measure c) xEnd
    else c :: rest

/-- The `for (const [xStart, xEnd] of ranges)` loop: place greedily into each
range in order, breaking out once every character has been placed. -/
def placeInRanges (env : LayoutEnv) : List Char → List (Nat × Nat) → List Char
  | cs, [] => cs
  | cs, (xStart, xEnd) :: rest =>
    let cs' := placeInRange env cs (xStart : ℚ) (xEnd : ℚ)
    if cs'.isEmpty then cs' else placeInRanges env cs' rest

/-- The scanline loop
`for (let y = flowerHeight - LINE_HEIGHT_PX; y >= 0 && charIndex < characters.length; y -= LINE_HEIGHT_PX)`:
a structurally recursive translation on a fuel counter; each iteration either
stops because the loop guard fails or consumes one unit of fuel.  The wrapper
`scanLines` supplies fuel `⌊flowerHeight / LINE_HEIGHT_PX⌋ + 1`, enough for
every guard-true iteration (shown by `scanLinesFuel_fuel_irrelevant`), so the
loop always stops because its guard fails, exactly as in the source. -/
def scanLinesFuel (env : LayoutEnv) : Nat → ℚ → List Char → List Char
  | 0, _, cs => cs
  | fuel + 1, y, cs =>
    if 0 ≤ y ∧ cs ≠ [] then
      scanLinesFuel env fuel (y - (LINE_HEIGHT_PX : ℚ))
        (placeInRanges env cs (collectRanges env y))
    else cs

/-- Fuel sufficient for every scanline between `flowerHeight - LINE_HEIGHT_PX`
and `0`. -/
def lineFuel (h : ℚ) : Nat := (⌊h / (LINE_HEIGHT_PX : ℚ)⌋).toNat + 1

/-- The complete scan of `willTextOverflow`, returning the unplaced suffix of
the character sequence (the source's `characters.slice(charIndex)`). -/
def scanLines (env : LayoutEnv) (cs : List Char) : List Char :=
  scanLinesFuel env (lineFuel env.flowerHeight)
    (env.flowerHeight - (LINE_HEIGHT_PX : ℚ)) cs

/-- `willTextOverflow(textItems)` from src/utils/flowerUtils.js: `false` for an
empty list (before the resource is consulted), `false` when no 2D context is
available, otherwise run the scan over the characters of
`textItems.join(" ")` and report whether characters remain unplaced. -/
def willTextOverflow (env : LayoutEnv) (items : List String) : Bool :=
  if items.isEmpty then false
  else if !env.ctxOk then false
  else !(scanLines env (joinSpace items).toList).isEmpty

/-! ### Spec-side scan: exhaust all lines, no early exit

The spec phrases the overflow check as the characters that "remain unplaced
after exhausting all lines"; the source loop additionally exits early once
`charIndex` reaches the end.  `scanLinesAllFuel` is the spec-shaped scan that
visits every line unconditionally; the two agree because placement of an empty
character list places nothing. -/

def scanLinesAllFuel (env : LayoutEnv) : Nat → ℚ → List Char → List Char
  | 0, _, cs => cs
  | fuel + 1, y, cs =>
    if 0 ≤ y then
      scanLinesAllFuel env fuel (y - (LINE_HEIGHT_PX : ℚ))
        (placeInRanges env cs (collectRanges env y))
    else cs

/-- Characters of the flattened candidate that remain unplaced after every
scanline (bottom edge upward in `LINE_HEIGHT_PX` steps) has been processed. -/
def unplacedAfterAllLines (env : LayoutEnv) (items : List String) : List Char :=
  scanLinesAllFuel env (lineFuel env.flowerHeight)
    (env.flowerHeight - (LINE_HEIGHT_PX : ℚ)) (joinSpace items).toList

/-! ## Component state machine (src/components/InteractiveCanvas.jsx)

Each React ref / piece of `useState` becomes a field of `CState`; each event
handler becomes a pure function on `CState`.  Timers are modelled by explicit
fields: the silence timer by a generation number (a fresh `setTimeout` handle
per arming), the result timer by the scheduled utterance and delay, the
restart timer and the volume-poll interval by pending flags, the status
watchdog by its armed duration. -/

/-- The `status` state: `"idle" | "listening" | "done" | "rendering" | "clearing"`. -/
inductive Status
  | idle
  | listening
  | done
  | rendering
  | clearing
deriving DecidableEq, Repr

/-- The `fadePhase` state: `"idle" | "out" | "in"`. -/
inductive FadePhase
  | idle
  | fadeOut
  | fadeIn
deriving DecidableEq, Repr

/-- Outcome of `recognitionRef.current.start()` inside the `try`:
it returns normally, throws `InvalidStateError`, or throws another error. -/
inductive StartOutcome
  | ok
  | throwsOther
  | throwsInvalidState
deriving DecidableEq, Repr

/-- State of `InteractiveCanvas`: React state plus the long-lived refs. -/
structure CState where
  text : List String
  status : Status
  lastTranscript : String
  fadePhase : FadePhase
  pendingTranscript : Option String
  previousCharCount : Nat
  newTextAnimActive : Bool
  resultTimer : Option (String × Nat)
  collectedTranscripts : List String
  silenceTimer : Option Nat
  timerGen : Nat
  recognitionActive : Bool
  pendingRecognitionStart : Bool
  recognitionRetryCount : Nat
  restartTimerPending : Bool
  recognitionInstance : Bool
  volumePollActive : Bool
  statusWatchdog : Option Nat
  startCalls : Nat
deriving DecidableEq, Repr

/-- Initial component state: empty persisted text, `status = "idle"`, no
timers armed, the volume-poll interval armed by the idle effect. -/
def initState : CState where
  text := []
  status := Status.idle
  lastTranscript := ""
  fadePhase := FadePhase.idle
  pendingTranscript := none
  previousCharCount := 0
  newTextAnimActive := false
  resultTimer := none
  collectedTranscripts := []
  silenceTimer := none
  timerGen := 0
  recognitionActive := false
  pendingRecognitionStart := false
  recognitionRetryCount := 0
  restartTimerPending := false
  recognitionInstance := false
  volumePollActive := true
  statusWatchdog := none
  startCalls := 0

/-- JS `String.prototype.trim()`: strip leading and trailing whitespace. -/
def jsTrim (s : String) : String :=
  String.mk
    (((s.toList.dropWhile Char.isWhitespace).reverse.dropWhile
        Char.isWhitespace).reverse)

/-- `handleTranscript(transcript)`: clear the result timer; an empty transcript
returns to idle; otherwise test `willTextOverflow` on the candidate
`[...textRef.current, transcript]` and either store the transcript as pending
and start the clearing fade-out, or append it, reset the new-character
animation and start rendering. -/
def handleTranscript (env : LayoutEnv) (transcript : String) (s : CState) :
    CState :=
  let s1 : CState := { s with resultTimer := none }
  if transcript = "" then { s1 with status := Status.idle }
  else
    let candidate := s1.text ++ [transcript]
    if willTextOverflow env candidate then
      { s1 with pendingTranscript := some transcript,
                fadePhase := FadePhase.fadeOut,
                status := Status.clearing }
    else
      { s1 with pendingTranscript := none,
                previousCharCount := (joinSpace s1.text).length,
                newTextAnimActive := true,
                text := candidate,
                fadePhase := FadePhase.idle,
                status := Status.rendering }

/-- `finalizeRecognition()`: clear the silence timer, join the collected final
segments with single spaces and trim, clear the buffer; a non-empty combined
utterance is displayed (`status = "done"`) and its layout is scheduled after
`RESULT_DISPLAY_DELAY_MS`; an empty one returns to idle.  (The subsequent
`recognition.stop()` call only touches the external recognizer.) -/
def finalizeRecognition (s : CState) : CState :=
  let s1 : CState := { s with silenceTimer := none }
  let fullTranscript := jsTrim (joinSpace s1.collectedTranscripts)
  let s2 : CState := { s1 with collectedTranscripts := [] }
  if fullTranscript = "" then { s2 with status := Status.idle }
  else
    { s2 with lastTranscript := fullTranscript,
              status := Status.done,
              resultTimer := some (fullTranscript, RESULT_DISPLAY_DELAY_MS) }

/-- `resetSilenceTimer()`: clear any armed silence timer and arm a fresh one
(`SILENCE_TIMEOUT_MS` until `finalizeRecognition`); the generation counter
gives each arming a distinct handle. -/
def resetSilenceTimer (s : CState) : CState :=
  { s with silenceTimer := some s.timerGen, timerGen := s.timerGen + 1 }

/-- `recognition.onresult`: trim the last result's transcript; a final
non-empty segment is appended to the buffer and resets the silence timer; an
interim non-empty segment only resets the silence timer; a segment whose
trimmed transcript is empty does neither. -/
def recognitionOnResult (isFinal : Bool) (raw : String) (s : CState) : CState :=
  let transcript := jsTrim raw
  if isFinal ∧ transcript ≠ "" then
    resetSilenceTimer
      { s with collectedTranscripts := s.collectedTranscripts ++ [transcript] }
  else if ¬isFinal ∧ transcript ≠ "" then
    resetSilenceTimer s
  else s

/-- `requestRecognitionRestart(reason)`: clear a pending restart timeout; at or
above `RECOGNITION_MAX_RETRIES` consecutive retries, reset the counter and
schedule nothing (waiting for a fresh external signal); otherwise increment the
counter, set the deferred-start flag and arm the restart timeout. -/
def requestRecognitionRestart (s : CState) : CState :=
  let s1 : CState := { s with restartTimerPending := false }
  if RECOGNITION_MAX_RETRIES ≤ s1.recognitionRetryCount then
    { s1 with recognitionRetryCount := 0 }
  else
    { s1 with recognitionRetryCount := s1.recognitionRetryCount + 1,
              pendingRecognitionStart := true,
              restartTimerPending := true }

/-- `startListening()`: a start while recognition is active is deferred; else
clear the silence timer, reset the buffer, ensure a recognizer instance exists
and call `start()`.  Success marks recognition active, clears the deferred
flag and zeroes the retry counter; a non-`InvalidStateError` throw returns to
idle and requests a restart.  `startCalls` counts invocations. -/
def startListening (outcome : StartOutcome) (s : CState) : CState :=
  let s0 : CState := { s with startCalls := s.startCalls + 1 }
  if s0.recognitionActive then { s0 with pendingRecognitionStart := true }
  else
    let s1 : CState := { s0 with silenceTimer := none,
                                 collectedTranscripts := [],
                                 recognitionInstance := true }
    match outcome with
    | StartOutcome.ok =>
        { s1 with recognitionActive := true,
                  pendingRecognitionStart := false,
                  recognitionRetryCount := 0 }
    | StartOutcome.throwsOther =>
        requestRecognitionRestart
          { s1 with recognitionActive := false, status := Status.idle }
    | StartOutcome.throwsInvalidState =>
        { s1 with recognitionActive := false }

/-- Firing of the restart timeout armed by `requestRecognitionRestart`: when
idle with no active recognition it starts listening, otherwise it re-flags the
deferred start. -/
def restartTimerFire (outcome : StartOutcome) (s : CState) : CState :=
  if s.restartTimerPending then
    let s1 : CState := { s with restartTimerPending := false }
    if s1.status = Status.idle ∧ ¬s1.recognitionActive then
      startListening outcome s1
    else { s1 with pendingRecognitionStart := true }
  else s

/-- `getCurrentVolume()`: `0` without an analyser, else the mean of the byte
frequency data scaled to `[0, 1]`. -/
def getCurrentVolume : Option (List Nat) → ℚ
  | none => 0
  | some dataArray =>
      ((dataArray.foldl (fun sum b => sum + b) 0 : Nat) : ℚ) /
        (dataArray.length : ℚ) / 255

/-- One tick of the volume-poll interval (armed only while idle): sample the
volume; at or above `VOLUME_THRESHOLD`, cancel the interval and start
listening; below it, do nothing. -/
def volumePollTick (outcome : StartOutcome) (analyserData : Option (List Nat))
    (s : CState) : CState :=
  if s.volumePollActive then
    if VOLUME_THRESHOLD ≤ getCurrentVolume analyserData then
      startListening outcome { s with volumePollActive := false }
    else s
  else s

/-- A sequence of volume-poll ticks. -/
def runPolls (outcome : StartOutcome) (samples : List (Option (List Nat)))
    (s : CState) : CState :=
  samples.foldl (fun s d => volumePollTick outcome d s) s

/-- The volume-monitoring effect: entering `idle` (re)arms the poll interval;
its cleanup on leaving `idle` clears it. -/
def volumeMonitorEffect (s : CState) : CState :=
  if s.status = Status.idle then { s with volumePollActive := true }
  else { s with volumePollActive := false }

/-- The status-watchdog effect: any status change clears the previous
watchdog; a non-idle status arms one for `RENDER_IDLE_WATCHDOG_MS`. -/
def statusWatchdogEffect (s : CState) : CState :=
  if s.status = Status.idle then { s with statusWatchdog := none }
  else { s with statusWatchdog := some RENDER_IDLE_WATCHDOG_MS }

/-- Firing of the status watchdog: force the machine back to idle. -/
def statusWatchdogFire (s : CState) : CState :=
  { s with status := Status.idle, statusWatchdog := none }

/-- `handleCanvasTransitionEnd()`: at the end of the fade-out, replace the
accumulated text with the pending utterance (or nothing — JS
`pending ? [pending] : []`, so an empty pending string also clears), reset the
animation baseline and start the fade-in render; at the end of the fade-in,
return the fade phase to idle. -/
def handleCanvasTransitionEnd (s : CState) : CState :=
  match s.fadePhase with
  | FadePhase.fadeOut =>
      let nextText :=
        match s.pendingTranscript with
        | some pending => if pending = "" then [] else [pending]
        | none => []
      { s with pendingTranscript := none,
               previousCharCount := 0,
               newTextAnimActive := true,
               text := nextText,
               fadePhase := FadePhase.fadeIn,
               status := Status.rendering }
  | FadePhase.fadeIn => { s with fadePhase := FadePhase.idle }
  | FadePhase.idle => s

/-! ## Resource cache (src/utils/flowerUtils.js, `loadFlowerResources`) -/

/-- State of the module-level `flowerResourcesPromise` cache: the identity of
the memoized promise, a supply of fresh identities, and how many underlying
fetch-and-parse loads have been started. -/
structure CacheState where
  promiseId : Option Nat
  nextId : Nat
  fetchCount : Nat
deriving DecidableEq, Repr

/-- The cache before any load: `flowerResourcesPromise = null`. -/
def emptyCache : CacheState where
  promiseId := none
  nextId := 0
  fetchCount := 0

/-- `loadFlowerResources()`: on first call create the promise (starting the
underlying fetch) and memoize it; every call returns the memoized promise. -/
def loadFlowerResources (c : CacheState) : CacheState × Nat :=
  match c.promiseId with
  | some p => (c, p)
  | none =>
      ({ promiseId := some c.nextId,
         nextId := c.nextId + 1,
         fetchCount := c.fetchCount + 1 }, c.nextId)

/-- A sequence of `loadFlowerResources()` calls, collecting each result. -/
def runLoads : Nat → CacheState → CacheState × List Nat
  | 0, c => (c, [])
  | n + 1, c =>
      let call := loadFlowerResources c
      let rest := runLoads n call.1
      (rest.1, call.2 :: rest.2)

/-- `willTextOverflow` with the resource cache threaded through: the empty
candidate answers `false` before `loadFlowerResources()` is awaited, so the
cache is untouched. -/
def willTextOverflowCached (c : CacheState) (env : LayoutEnv)
    (items : List String) : CacheState × Bool :=
  if items.isEmpty then (c, false)
  else
    let (c1, _) := loadFlowerResources c
    (c1, if !env.ctxOk then false
         else !(scanLines env (joinSpace items).toList).isEmpty)

/-! ## Recognition errors (`recognition.onerror`) -/

/-- The `event.error` values distinguished by `recognition.onerror`. -/
inductive RecError
  | aborted
  | noSpeech
  | network
  | notAllowed
  | serviceNotAllowed
  | audioCapture
  | other
deriving DecidableEq, Repr

/-- Membership in the handler's `fatalErrors` set
(`network`, `not-allowed`, `service-not-allowed`, `audio-capture`). -/
def RecError.isFatal : RecError → Bool
  | RecError.network => true
  | RecError.notAllowed => true
  | RecError.serviceNotAllowed => true
  | RecError.audioCapture => true
  | _ => false

/-- `recognition.onerror`: an `aborted` error only deactivates and returns a
listening machine to idle; any other error deactivates, flags a deferred start
on `no-speech`, discards the recognizer instance on a fatal error, then
finalizes any buffered segments and requests a restart. -/
def recognitionOnError (err : RecError) (s : CState) : CState :=
  if err = RecError.aborted then
    { s with recognitionActive := false,
             status := if s.status = Status.listening then Status.idle
                       else s.status }
  else
    let s1 : CState := { s with recognitionActive := false }
    let s2 : CState :=
      if err = RecError.noSpeech then { s1 with pendingRecognitionStart := true }
      else s1
    let s3 : CState :=
      if err.isFatal then { s2 with recognitionInstance := false } else s2
    requestRecognitionRestart (finalizeRecognition s3)

/-! ## Concrete environments and states used by the witnesses -/

/-- Shape too small for any scanline: every character of a non-empty candidate
stays unplaced. -/
def envTiny : LayoutEnv where
  ctxOk := true
  flowerWidth := 1
  flowerHeight := 1
  inside := fun _ _ => true
  measure := fun _ => 1

/-- Roomy shape: 10 units wide, two scanlines, every point inside, every
character one unit wide. -/
def envRoomy : LayoutEnv where
  ctxOk := true
  flowerWidth := 10
  flowerHeight := 42
  inside := fun _ _ => true
  measure := fun _ => 1

/-- Environment whose canvas yields no 2D context. -/
def envNoCtx : LayoutEnv where
  ctxOk := false
  flowerWidth := 1
  flowerHeight := 1
  inside := fun _ _ => true
  measure := fun _ => 1

/-- A listening session with an armed silence timer. -/
def listenState : CState :=
  { initState with status := Status.listening,
                   recognitionActive := true,
                   silenceTimer := some 0,
                   timerGen := 1 }

/-- A listening session holding two collected final segments. -/
def sessionState : CState :=
  { initState with status := Status.listening,
                   recognitionActive := true,
                   silenceTimer := some 0,
                   timerGen := 1,
                   collectedTranscripts := ["안녕", "하세요"] }

/-- Scenario-F trace: an active session suffers a fatal `network` error, the
scheduled restart throws three times in a row, then a loud volume sample
triggers a successful start. -/
def errS0 : CState := { initState with recognitionActive := true }

def errS1 : CState := recognitionOnError RecError.network errS0

def errS2 : CState := restartTimerFire StartOutcome.throwsOther errS1

def errS3 : CState := restartTimerFire StartOutcome.throwsOther errS2

def errS4 : CState := restartTimerFire StartOutcome.throwsOther errS3

def errS5 : CState := volumePollTick StartOutcome.ok (some [255]) errS4

/-! ## Lemmas about the layout scan -/

theorem placeInRanges_nil (env : LayoutEnv) (rs : List (Nat × Nat)) :
    placeInRanges env [] rs = [] := by
  cases rs with
  | nil => rfl
  | cons r rest => cases r; simp [placeInRanges, placeInRange]

theorem lineFuelAux_neg {y : ℚ} (hy : y < 0) :
    (⌊y / (LINE_HEIGHT_PX : ℚ)⌋ + 1).toNat = 0 := by
  have hpos : (0 : ℚ) < (LINE_HEIGHT_PX : ℚ) := by norm_num [LINE_HEIGHT_PX]
  have : y / (LINE_HEIGHT_PX : ℚ) < 0 := div_neg_of_neg_of_pos hy hpos
  have hfloor : ⌊y / (LINE_HEIGHT_PX : ℚ)⌋ < 0 := by
    exact_mod_cast Int.floor_lt.mpr (by simpa using this)
  omega

theorem floor_step (y : ℚ) :
    ⌊(y - (LINE_HEIGHT_PX : ℚ)) / (LINE_HEIGHT_PX : ℚ)⌋ =
      ⌊y / (LINE_HEIGHT_PX : ℚ)⌋ - 1 := by
  have hne : ((LINE_HEIGHT_PX : ℚ)) ≠ 0 := by norm_num [LINE_HEIGHT_PX]
  have h1 : (y - (LINE_HEIGHT_PX : ℚ)) / (LINE_HEIGHT_PX : ℚ) =
      y / (LINE_HEIGHT_PX : ℚ) - 1 := by
    field_simp
  rw [h1]
  exact_mod_cast Int.floor_sub_one (y / (LINE_HEIGHT_PX : ℚ))

theorem scanLinesFuel_fuel_irrelevant (env : LayoutEnv) :
    ∀ f g : Nat, ∀ y : ℚ, ∀ cs : List Char,
      (⌊y / (LINE_HEIGHT_PX : ℚ)⌋ + 1).toNat ≤ f →
      (⌊y / (LINE_HEIGHT_PX : ℚ)⌋ + 1).toNat ≤ g →
      scanLinesFuel env f y cs = scanLinesFuel env g y cs := by
  intro f
  induction f with
  | zero =>
    intro g y cs hf hg
    have hy : y < 0 := by
      by_contra hpos
      push_neg at hpos
      have : (0 : ℤ) ≤ ⌊y / (LINE_HEIGHT_PX : ℚ)⌋ :=
        Int.floor_nonneg.mpr (div_nonneg hpos (by norm_num [LINE_HEIGHT_PX]))
      omega
    have hguard : ¬(0 ≤ y ∧ cs ≠ []) := by
      intro h
      exact absurd h.1 (not_le.mpr hy)
    cases g with
    | zero => rfl
    | succ g => simp [scanLinesFuel, hguard]
  | succ f ih =>
    intro g y cs hf hg
    cases g with
    | zero =>
      have hy : y < 0 := by
        by_contra hpos
        push_neg at hpos
        have : (0 : ℤ) ≤ ⌊y / (LINE_HEIGHT_PX : ℚ)⌋ :=
          Int.floor_nonneg.mpr (div_nonneg hpos (by norm_num [LINE_HEIGHT_PX]))
        omega
      have hguard : ¬(0 ≤ y ∧ cs ≠ []) := by
        intro h
        exact absurd h.1 (not_le.mpr hy)
      simp [scanLinesFuel, hguard]
    | succ g =>
      by_cases hguard : 0 ≤ y ∧ cs ≠ []
      · have hfl : (0 : ℤ) ≤ ⌊y / (LINE_HEIGHT_PX : ℚ)⌋ :=
          Int.floor_nonneg.mpr (div_nonneg hguard.1 (by norm_num [LINE_HEIGHT_PX]))
        have hstep := floor_step y
        simp only [scanLinesFuel, if_pos hguard]
        exact ih g (y - (LINE_HEIGHT_PX : ℚ))
          (placeInRanges env cs (collectRanges env y))
          (by rw [hstep]; omega) (by rw [hstep]; omega)
      · simp [scanLinesFuel, hguard]

theorem scanLinesAllFuel_nil (env : LayoutEnv) :
    ∀ f : Nat, ∀ y : ℚ, scanLinesAllFuel env f y [] = [] := by
  intro f
  induction f with
  | zero => intro y; rfl
  | succ f ih =>
    intro y
    by_cases hy : 0 ≤ y
    · simp [scanLinesAllFuel, hy, placeInRanges_nil, ih]
    · simp [scanLinesAllFuel, hy]

theorem scanLinesFuel_eq_all (env : LayoutEnv) :
    ∀ f : Nat, ∀ y : ℚ, ∀ cs : List Char,
      scanLinesFuel env f y cs = scanLinesAllFuel env f y cs := by
  intro f
  induction f with
  | zero => intro y cs; rfl
  | succ f ih =>
    intro y cs
    by_cases hy : 0 ≤ y
    · by_cases hcs : cs = []
      · subst hcs
        simp [scanLinesFuel, scanLinesAllFuel, hy, placeInRanges_nil,
          scanLinesAllFuel_nil]
      · simp [scanLinesFuel, scanLinesAllFuel, hy, hcs, ih]
    · have : ¬(0 ≤ y ∧ cs ≠ []) := fun h => hy h.1
      simp [scanLinesFuel, scanLinesAllFuel, hy, this]

/-! ## Helper lemmas about the state machine -/

theorem requestRecognitionRestart_startCalls (s : CState) :
    (requestRecognitionRestart s).startCalls = s.startCalls := by
  by_cases h : RECOGNITION_MAX_RETRIES ≤ s.recognitionRetryCount <;>
    simp [requestRecognitionRestart, h]

theorem requestRecognitionRestart_pollActive (s : CState) :
    (requestRecognitionRestart s).volumePollActive = s.volumePollActive := by
  by_cases h : RECOGNITION_MAX_RETRIES ≤ s.recognitionRetryCount <;>
    simp [requestRecognitionRestart, h]

theorem startListening_startCalls (o : StartOutcome) (s : CState) :
    (startListening o s).startCalls = s.startCalls + 1 := by
  unfold startListening
  by_cases h : s.recognitionActive <;> cases o <;>
    simp [h, requestRecognitionRestart_startCalls]

theorem startListening_pollActive (o : StartOutcome) (s : CState) :
    (startListening o s).volumePollActive = s.volumePollActive := by
  unfold startListening
  by_cases h : s.recognitionActive <;> cases o <;>
    simp [h, requestRecognitionRestart_pollActive]

theorem runLoads_memoized (p : Nat) :
    ∀ n : Nat, ∀ c : CacheState, c.promiseId = some p →
      runLoads n c = (c, List.replicate n p) := by
  intro n
  induction n with
  | zero => intro c h; rfl
  | succ n ih =>
    intro c h
    simp [runLoads, loadFlowerResources, h, ih c h, List.replicate]

/-! ## Claims -/

/-- C1: `willTextOverflow(candidate)` flattens the candidate list of utterance
strings by joining with single spaces into one character sequence, scans lines
from the shape's bottom edge upward in fixed `LINE_HEIGHT_PX` steps, collects
per-line maximal inside-shape x-ranges at 1-unit resolution against the
expanded hit-test region, greedily places characters left to right within each
range, and returns `true` iff some characters remain unplaced after exhausting
all lines. -/
theorem C1_willTextOverflow_iff_unplaced (env : LayoutEnv) (items : List String)
    (hctx : env.ctxOk = true) :
    willTextOverflow env items = true ↔ unplacedAfterAllLines env items ≠ [] := by
  unfold willTextOverflow scanLines unplacedAfterAllLines
  rw [scanLinesFuel_eq_all]
  by_cases hitems : items.isEmpty
  · have h0 : items = [] := by
      cases items with
      | nil => rfl
      | cons a l => simp [List.isEmpty] at hitems
    subst h0
    have h1 : (joinSpace []).data = ([] : List Char) := rfl
    simp only [String.toList, h1, scanLinesAllFuel_nil]
    simp
  · simp [hitems, hctx, List.isEmpty_iff]

unseal Rat.sub Rat.add Rat.mul Rat.inv in
/-- Witness for C1 at a concrete environment and candidate. -/
theorem C1_witness :
    envTiny.ctxOk = true ∧
    (willTextOverflow envTiny ["a"] = true ↔
      unplacedAfterAllLines envTiny ["a"] ≠ []) ∧
    willTextOverflow envTiny ["a"] = true := by
  exact ⟨rfl, C1_willTextOverflow_iff_unplaced envTiny ["a"] rfl, by decide⟩

/-- C2: on overflow the transcript is stored as pending and, when the fade-out
transition completes, the accumulated text list is replaced with exactly the
single pending utterance (or the empty list when none is pending) and the
machine renders — never a partial mix of old and new content. -/
theorem C2_reset_atomicity (env : LayoutEnv) (t : String) (s : CState)
    (ht : t ≠ "") (hov : willTextOverflow env (s.text ++ [t]) = true) :
    (handleCanvasTransitionEnd (handleTranscript env t s)).text = [t] ∧
    (handleCanvasTransitionEnd (handleTranscript env t s)).status =
      Status.rendering ∧
    (handleCanvasTransitionEnd (handleTranscript env t s)).fadePhase =
      FadePhase.fadeIn ∧
    ∀ s2 : CState, s2.fadePhase = FadePhase.fadeOut →
      s2.pendingTranscript = none → (handleCanvasTransitionEnd s2).text = [] := by
  refine ⟨?_, ?_, ?_, ?_⟩
  · simp [handleTranscript, handleCanvasTransitionEnd, ht, hov]
  · simp [handleTranscript, handleCanvasTransitionEnd, ht, hov]
  · simp [handleTranscript, handleCanvasTransitionEnd, ht, hov]
  · intro s2 h2 h3
    simp [handleCanvasTransitionEnd, h2, h3]

unseal Rat.sub Rat.add Rat.mul Rat.inv in
/-- Witness for C2: a one-character utterance overflowing the tiny shape. -/
theorem C2_witness :
    "a" ≠ "" ∧
    willTextOverflow envTiny (initState.text ++ ["a"]) = true ∧
    (handleCanvasTransitionEnd (handleTranscript envTiny "a" initState)).text =
      ["a"] ∧
    (handleCanvasTransitionEnd (handleTranscript envTiny "a" initState)).status =
      Status.rendering := by
  have h := C2_reset_atomicity envTiny "a" initState (by decide) (by decide)
  exact ⟨by decide, by decide, h.1, h.2.1⟩

/-- C3: for every accumulated list and non-empty transcript whose candidate
does not overflow, handling the transcript appends it — the new list is
exactly the old list with the transcript at the end — and the machine
transitions to rendering. -/
theorem C3_append_extension (env : LayoutEnv) (t : String) (s : CState)
    (ht : t ≠ "") (hov : willTextOverflow env (s.text ++ [t]) = false) :
    (handleTranscript env t s).text = s.text ++ [t] ∧
    (handleTranscript env t s).status = Status.rendering := by
  constructor <;> simp [handleTranscript, ht, hov]

unseal Rat.sub Rat.add Rat.mul Rat.inv in
/-- Witness for C3: a short utterance fitting the roomy shape. -/
theorem C3_witness :
    "hi" ≠ "" ∧
    willTextOverflow envRoomy (initState.text ++ ["hi"]) = false ∧
    (handleTranscript envRoomy "hi" initState).text =
      initState.text ++ ["hi"] ∧
    (handleTranscript envRoomy "hi" initState).status = Status.rendering := by
  have h := C3_append_extension envRoomy "hi" initState (by decide) (by decide)
  exact ⟨by decide, by decide, h.1, h.2⟩

/-- C4: `finalizeRecognition` joins the buffered final segments with single
spaces and trims, clears the buffer (and the silence timer); a non-empty
combined utterance transitions to done with its layout scheduled after
`RESULT_DISPLAY_DELAY_MS`, an empty one transitions to idle.  Segments
`"안녕"` then `"하세요"` combine to `"안녕 하세요"`. -/
theorem C4_finalize_join_trim (s : CState) :
    (finalizeRecognition s).collectedTranscripts = [] ∧
    (finalizeRecognition s).silenceTimer = none ∧
    (jsTrim (joinSpace s.collectedTranscripts) ≠ "" →
      (finalizeRecognition s).status = Status.done ∧
      (finalizeRecognition s).resultTimer =
        some (jsTrim (joinSpace s.collectedTranscripts),
          RESULT_DISPLAY_DELAY_MS)) ∧
    (jsTrim (joinSpace s.collectedTranscripts) = "" →
      (finalizeRecognition s).status = Status.idle) ∧
    jsTrim (joinSpace ["안녕", "하세요"]) = "안녕 하세요" := by
  by_cases h : jsTrim (joinSpace s.collectedTranscripts) = ""
  · refine ⟨?_, ?_, fun hne => absurd h hne, fun _ => ?_, by decide⟩ <;>
      simp [finalizeRecognition, h]
  · refine ⟨?_, ?_, fun _ => ⟨?_, ?_⟩, fun he => absurd he h, by decide⟩ <;>
      simp [finalizeRecognition, h]

/-- Witness for C4: finalizing the session holding `"안녕"` and `"하세요"`. -/
theorem C4_witness :
    jsTrim (joinSpace sessionState.collectedTranscripts) ≠ "" ∧
    (finalizeRecognition sessionState).status = Status.done ∧
    (finalizeRecognition sessionState).resultTimer =
      some ("안녕 하세요", RESULT_DISPLAY_DELAY_MS) ∧
    (finalizeRecognition sessionState).collectedTranscripts = [] := by
  have h := C4_finalize_join_trim sessionState
  have hne : jsTrim (joinSpace sessionState.collectedTranscripts) ≠ "" := by
    decide
  refine ⟨hne, (h.2.2.1 hne).1, ?_, h.1⟩
  rw [(h.2.2.1 hne).2]
  decide

unseal Rat.sub Rat.add Rat.mul Rat.inv in
/-- C5: a restart request schedules a backoff retry iff the retry counter is
below `RECOGNITION_MAX_RETRIES`; on the Scenario-F trace a fatal error
followed by three failing restarts schedules exactly three retries, the fourth
request schedules nothing, and a subsequent volume-triggered start still
succeeds. -/
theorem C5_retry_cap :
    (∀ s : CState,
      (requestRecognitionRestart s).restartTimerPending =
        decide (s.recognitionRetryCount < RECOGNITION_MAX_RETRIES)) ∧
    (∀ s : CState,
      (requestRecognitionRestart s).recognitionRetryCount =
        if RECOGNITION_MAX_RETRIES ≤ s.recognitionRetryCount then 0
        else s.recognitionRetryCount + 1) ∧
    (errS1.restartTimerPending = true ∧ errS1.recognitionRetryCount = 1) ∧
    (errS2.restartTimerPending = true ∧ errS2.recognitionRetryCount = 2) ∧
    (errS3.restartTimerPending = true ∧ errS3.recognitionRetryCount = 3) ∧
    (errS4.restartTimerPending = false ∧ errS4.recognitionRetryCount = 0) ∧
    errS5.recognitionActive = true ∧
    errS5.startCalls = errS4.startCalls + 1 := by
  refine ⟨?_, ?_, by decide, by decide, by decide, by decide, by decide,
    by decide⟩
  · intro s
    by_cases h : RECOGNITION_MAX_RETRIES ≤ s.recognitionRetryCount
    · have hd : decide (s.recognitionRetryCount < RECOGNITION_MAX_RETRIES) =
          false := decide_eq_false (by omega)
      simp [requestRecognitionRestart, h, hd]
    · have hd : decide (s.recognitionRetryCount < RECOGNITION_MAX_RETRIES) =
          true := decide_eq_true (by omega)
      simp [requestRecognitionRestart, h, hd]
  · intro s
    by_cases h : RECOGNITION_MAX_RETRIES ≤ s.recognitionRetryCount <;>
      simp [requestRecognitionRestart, h]

/-- C6: at a poll tick while the interval is armed, capture start is invoked
iff the sampled normalized volume reaches `VOLUME_THRESHOLD`; triggering
cancels the interval; a below-threshold sample changes nothing, and a
below-threshold reading at every poll never starts capture. -/
theorem C6_volume_gate (o : StartOutcome) (d : Option (List Nat)) (s : CState)
    (hpoll : s.volumePollActive = true) :
    ((volumePollTick o d s).startCalls = s.startCalls + 1 ↔
        VOLUME_THRESHOLD ≤ getCurrentVolume d) ∧
    (VOLUME_THRESHOLD ≤ getCurrentVolume d →
        (volumePollTick o d s).volumePollActive = false) ∧
    (getCurrentVolume d < VOLUME_THRESHOLD → volumePollTick o d s = s) ∧
    (∀ s2 : CState,
        (volumeMonitorEffect s2).volumePollActive =
          decide (s2.status = Status.idle)) ∧
    (∀ samples : List (Option (List Nat)),
        (∀ x ∈ samples, getCurrentVolume x < VOLUME_THRESHOLD) →
        ∀ s2 : CState, runPolls o samples s2 = s2) := by
  refine ⟨?_, ?_, ?_, ?_, ?_⟩
  · by_cases hv : VOLUME_THRESHOLD ≤ getCurrentVolume d
    · simp [volumePollTick, hpoll, hv, startListening_startCalls]
    · simp [volumePollTick, hpoll, hv]
  · intro hv
    simp [volumePollTick, hpoll, hv, startListening_pollActive]
  · intro hv
    simp [volumePollTick, hpoll, not_le.mpr hv]
  · intro s2
    by_cases h2 : s2.status = Status.idle <;> simp [volumeMonitorEffect, h2]
  · intro samples
    induction samples with
    | nil => intro _ s2; rfl
    | cons d2 rest ih =>
      intro hlt s2
      have hd2 : volumePollTick o d2 s2 = s2 := by
        simp [volumePollTick, not_le.mpr (hlt d2 (List.mem_cons_self d2 rest))]
      simp only [runPolls, List.foldl_cons] at ih ⊢
      rw [hd2]
      exact ih (fun x hx => hlt x (List.mem_cons_of_mem d2 hx)) s2

unseal Rat.sub Rat.add Rat.mul Rat.inv in
/-- Witness for C6: two quiet samples never start capture from the initial
state. -/
theorem C6_witness :
    initState.volumePollActive = true ∧
    getCurrentVolume (some [10, 10]) < VOLUME_THRESHOLD ∧
    runPolls StartOutcome.ok [some [10, 10], none] initState = initState := by
  refine ⟨rfl, by decide, ?_⟩
  exact (C6_volume_gate StartOutcome.ok (some [10, 10]) initState rfl).2.2.2.2
    [some [10, 10], none] (by decide) initState

/-- C7 counterexample: the claim says every recognized segment resets the
silence timer, but a segment whose transcript trims to empty (here an interim
and a final whitespace-only segment against a listening state with an armed
timer) leaves the state — in particular its silence timer — unchanged, while
an actual reset would have replaced the timer. -/
theorem C7_counterexample :
    recognitionOnResult false " " listenState = listenState ∧
    recognitionOnResult true " " listenState = listenState ∧
    (resetSilenceTimer listenState).silenceTimer ≠ listenState.silenceTimer := by
  exact ⟨by decide, by decide, by decide⟩

/-- C7 (amended): every recognized segment whose trimmed transcript is
non-empty — interim or final — replaces the armed silence timer with a fresh
one, and only final segments are appended to the transcript buffer. -/
theorem C7_amended_segment_reset (isFinal : Bool) (raw : String) (s : CState)
    (h : jsTrim raw ≠ "") :
    (recognitionOnResult isFinal raw s).silenceTimer = some s.timerGen ∧
    (recognitionOnResult isFinal raw s).timerGen = s.timerGen + 1 ∧
    (recognitionOnResult isFinal raw s).collectedTranscripts =
      (if isFinal then s.collectedTranscripts ++ [jsTrim raw]
       else s.collectedTranscripts) := by
  cases isFinal <;> simp [recognitionOnResult, h, resetSilenceTimer]

/-- Witness for C7: a final segment `"안녕"` re-arms the timer and is
appended. -/
theorem C7_witness :
    jsTrim "안녕" ≠ "" ∧
    (recognitionOnResult true "안녕" listenState).silenceTimer =
      some listenState.timerGen ∧
    (recognitionOnResult true "안녕" listenState).collectedTranscripts =
      ["안녕"] := by
  have h := C7_amended_segment_reset true "안녕" listenState (by decide)
  refine ⟨by decide, h.1, ?_⟩
  rw [h.2.2]
  decide

/-- C8: every non-idle status arms the watchdog for the bounded
`RENDER_IDLE_WATCHDOG_MS`, the watchdog's firing forces the machine to idle,
and no watchdog is armed exactly when the machine is idle — so the machine
never remains in a non-idle state past the watchdog duration. -/
theorem C8_watchdog_forces_idle (s : CState) (h : s.status ≠ Status.idle) :
    (statusWatchdogEffect s).statusWatchdog = some RENDER_IDLE_WATCHDOG_MS ∧
    (∀ s2 : CState, (statusWatchdogFire s2).status = Status.idle) ∧
    (∀ s2 : CState,
      (statusWatchdogEffect s2).statusWatchdog = none ↔
        s2.status = Status.idle) := by
  refine ⟨by simp [statusWatchdogEffect, h], fun s2 => rfl, ?_⟩
  intro s2
  by_cases h2 : s2.status = Status.idle <;> simp [statusWatchdogEffect, h2]

/-- Witness for C8 at a listening state. -/
theorem C8_witness :
    listenState.status ≠ Status.idle ∧
    (statusWatchdogEffect listenState).statusWatchdog =
      some RENDER_IDLE_WATCHDOG_MS ∧
    (statusWatchdogFire listenState).status = Status.idle := by
  have h := C8_watchdog_forces_idle listenState (by decide)
  exact ⟨by decide, h.1, h.2.1 listenState⟩

/-- C9: `loadFlowerResources` is single-flight — starting from the empty
cache, any positive number of calls performs exactly one underlying fetch,
memoizes one promise, and every call returns the very result of the first
call. -/
theorem C9_single_flight :
    ∀ n : Nat,
      (runLoads (n + 1) emptyCache).1.fetchCount = 1 ∧
      (runLoads (n + 1) emptyCache).1.promiseId = some 0 ∧
      ∀ r ∈ (runLoads (n + 1) emptyCache).2,
        r = (loadFlowerResources emptyCache).2 := by
  intro n
  have hload : loadFlowerResources emptyCache =
      ({ promiseId := some 0, nextId := 1, fetchCount := 1 }, 0) := rfl
  have h2 := runLoads_memoized 0 n
    { promiseId := some 0, nextId := 1, fetchCount := 1 } rfl
  have hrun : runLoads (n + 1) emptyCache =
      ({ promiseId := some 0, nextId := 1, fetchCount := 1 },
        0 :: List.replicate n 0) := by
    show ((runLoads n (loadFlowerResources emptyCache).1).1,
        (loadFlowerResources emptyCache).2 ::
          (runLoads n (loadFlowerResources emptyCache).1).2) = _
    rw [hload, h2]
  rw [hrun, hload]
  refine ⟨rfl, rfl, ?_⟩
  intro r hr
  rcases List.mem_cons.mp hr with h | h
  · exact h
  · exact List.eq_of_mem_replicate h

/-- Witness for C9 at three consecutive calls. -/
theorem C9_witness :
    (runLoads 3 emptyCache).1.fetchCount = 1 ∧
    (0 : Nat) ∈ (runLoads 3 emptyCache).2 ∧
    (0 : Nat) = (loadFlowerResources emptyCache).2 := by
  have h := C9_single_flight 2
  exact ⟨h.1, by decide, h.2.2 0 (by decide)⟩

/-- C10: `willTextOverflow` answers `false` for the empty candidate before the
shape resource is consulted (the threaded cache is returned untouched), and
answers `false` whenever no 2D context can be obtained — an empty accumulated
list is never judged to overflow. -/
theorem C10_empty_no_overflow (c : CacheState) (env : LayoutEnv) :
    willTextOverflowCached c env [] = (c, false) ∧
    willTextOverflow env [] = false ∧
    (∀ env2 : LayoutEnv, ∀ items : List String,
        env2.ctxOk = false → willTextOverflow env2 items = false) := by
  refine ⟨rfl, rfl, ?_⟩
  intro env2 items h
  unfold willTextOverflow
  by_cases hi : items.isEmpty <;> simp [hi, h]

/-- Witness for C10: empty candidate against the tiny shape, and a non-empty
candidate without a 2D context. -/
theorem C10_witness :
    willTextOverflowCached emptyCache envTiny [] = (emptyCache, false) ∧
    envNoCtx.ctxOk = false ∧
    willTextOverflow envNoCtx ["a"] = false := by
  have h := C10_empty_no_overflow emptyCache envTiny
  exact ⟨h.1, rfl, h.2.2 envNoCtx ["a"] rfl⟩

end FlowerTextFill
